import Mathlib

/-!
Verification of the lighthouse-sensor-bot evaluation core against its
natural-language specification.

The embedding covers:
* the `model_performance_metrics` materialized view
  (src/backend/postgres/materialized-views/average-scores-models.sql and
  src/backend/postgres/init/db_schemas.sql): per-model aggregation with
  `AVG(...) FILTER (WHERE ... IS NOT NULL)` and
  `STDDEV_SAMP(...) FILTER (WHERE ... IS NOT NULL)`;
* the `experiment_runs` / `run_attempt_history` tables of the store schema
  (src/unnamed/part_007) and the retry state machine of the orchestrator;
* the `LenientFactualCorrectness` and `StringPresence` scorers;
* the frontend `/api/evaluate` handler (src/frontend/pages/api/evaluate.js);
* the `refresh_model_performance_metrics` trigger function
  (src/backend/postgres/init/db_schemas.sql).

SQL `numeric` values are modelled as `ℚ`; a nullable column is `Option ℚ`.
-/

/-- The eight metric columns of the `evaluation_metrics` table
(src/backend/postgres/init/db_schemas.sql lines 99-109).  The table spells
the ROUGE column `rogue_score`. -/
inductive Metric where
  | factual_correctness
  | semantic_similarity
  | context_recall
  | faithfulness
  | bleu_score
  | non_llm_string_similarity
  | rogue_score
  | string_present_col
deriving DecidableEq, Repr

/-- One joined row feeding the `model_performance_metrics` view: a
`query_evaluation` row joined to its model and (via LEFT JOIN, hence
nullable) its `evaluation_metrics` row.  Each metric column is `Option ℚ`
because every metric column of `evaluation_metrics` is nullable. -/
structure EvalRow where
  model_id : String
  metrics : Metric → Option ℚ

/-- The rows of the view's input that belong to one model: the
`GROUP BY lm.id, lm.name, lm.type` grouping of the view. -/
def rowsForModel (db : List EvalRow) (m : String) : List EvalRow :=
  db.filter (fun r => r.model_id = m)

/-- The column of values of one metric over one model's group. -/
def metricColumn (db : List EvalRow) (m : String) (c : Metric) : List (Option ℚ) :=
  (rowsForModel db m).map (fun r => r.metrics c)

/-- The non-null values of a nullable column, in order. -/
def nonNull (xs : List (Option ℚ)) : List ℚ :=
  xs.filterMap id

/-- The number of null entries of a nullable column. -/
def countNull (xs : List (Option ℚ)) : ℕ :=
  (xs.filter (fun o => o.isNone)).length

/-- PostgreSQL `AVG(x) FILTER (WHERE x IS NOT NULL)`: the aggregate is
computed over the non-null inputs only, and an aggregate over an empty set
of inputs is SQL NULL (`none`), never zero. -/
def sqlAvg (xs : List (Option ℚ)) : Option ℚ :=
  if (nonNull xs).length = 0 then none
  else some ((nonNull xs).sum / (nonNull xs).length)

/-- The square of PostgreSQL `STDDEV_SAMP(x) FILTER (WHERE x IS NOT NULL)`,
i.e. the sample variance over the non-null inputs: NULL for fewer than two
non-null inputs, otherwise the sum of squared deviations from the mean
divided by `n - 1`.  The view's `stddev_samp` is the square root of this
value; the radicand is what is verified (the square root of a rational is
in general irrational). -/
def sqlVarSamp (xs : List (Option ℚ)) : Option ℚ :=
  if (nonNull xs).length < 2 then none
  else
    some
      (((nonNull xs).map
          (fun v => (v - (nonNull xs).sum / (nonNull xs).length) ^ 2)).sum /
        (((nonNull xs).length - 1 : ℕ) : ℚ))

/-- `avg_<metric>` column of the `model_performance_metrics` view
(average-scores-models.sql lines 16-23). -/
def avgMetric (db : List EvalRow) (m : String) (c : Metric) : Option ℚ :=
  sqlAvg (metricColumn db m c)

/-- Square of the `stddev_<metric>` column of the
`model_performance_metrics` view (average-scores-models.sql lines 25-32). -/
def stddevSqMetric (db : List EvalRow) (m : String) (c : Metric) : Option ℚ :=
  sqlVarSamp (metricColumn db m c)

/-- Concrete database used to witness the aggregate theorems: model `m1`
has three evaluation rows, of which two carry a faithfulness score and one
carries none. -/
def dbW : List EvalRow :=
  [⟨"m1", fun c => if c = Metric.faithfulness then some (1/2) else none⟩,
   ⟨"m1", fun c => if c = Metric.faithfulness then some 1 else none⟩,
   ⟨"m1", fun _ => none⟩,
   ⟨"m2", fun _ => some 1⟩]

/-- Modelled from the spec: the RunAttempt status values of §4.3 (the
orchestrator source is not under src/; the `experiment_runs.status` column
of src/unnamed/part_007 lines 142-150 stores them, default `pending`). -/
inductive RStatus where
  | pending
  | in_progress
  | succeeded
  | failed
deriving DecidableEq, Repr

/-- Modelled from the spec: the outcome of one AgentInvoker call as the
orchestrator sees it — success, or an `AgentError` that is either
retryable or not (§4.2, §7). -/
inductive AttemptOutcome where
  | success
  | failure (retryable : Bool)
deriving DecidableEq, Repr

/-- Modelled from the spec (§4.3): resolution of an `in_progress` attempt
that ended in an error.  A retryable error with `retry_count < max_retries`
schedules a retry (`pending`); a non-retryable error, or a retryable error
with `retry_count >= max_retries`, is terminal (`failed`). -/
def resolveFailure (maxRetries retryCount : ℕ) (retryable : Bool) : RStatus :=
  if retryable ∧ retryCount < maxRetries then RStatus.pending else RStatus.failed

/-- Modelled from the spec (§4.3, §4.4): the orchestrator executes one
RunAttempt to a terminal state.  `invoke n` is the outcome of the attempt
executed with `retry_count = n`; the result is the number of times the
AgentInvoker call was executed together with the terminal status. -/
def runToTermination (invoke : ℕ → AttemptOutcome) (maxRetries rc : ℕ) : ℕ × RStatus :=
  match invoke rc with
  | AttemptOutcome.success => (1, RStatus.succeeded)
  | AttemptOutcome.failure r =>
    if h : resolveFailure maxRetries rc r = RStatus.pending then
      let p := runToTermination invoke maxRetries (rc + 1)
      (p.1 + 1, p.2)
    else (1, RStatus.failed)
termination_by maxRetries + 1 - rc
decreasing_by
  unfold resolveFailure at h
  split at h
  · next hc =>
      obtain ⟨-, hlt⟩ := hc
      omega
  · exact absurd h (by simp)

/-- Modelled from the spec and schema: one row of the `experiment_runs`
table (src/unnamed/part_007 lines 142-150), the per-(model, test case,
run number) RunAttempt record the retry loop operates against. -/
structure RunRec where
  model_id : String
  test_case_id : String
  run_number : ℕ
  status : RStatus
  retry_count : ℕ
  last_error : Option String
deriving DecidableEq, Repr

/-- The `(model_id, test_case_id, run_number)` key of a RunAttempt — the
primary key `experiment_runs_pkey` (src/unnamed/part_007 lines 499-504). -/
def runKey (r : RunRec) : String × String × ℕ :=
  (r.model_id, r.test_case_id, r.run_number)

/-- The store holds at most one record per key: no two rows share a
`(model_id, test_case_id, run_number)` triple. -/
def uniqKeys (tbl : List RunRec) : Prop :=
  (tbl.map runKey).Nodup

/-- Modelled from the spec: the idempotent-by-key write the core issues
against `experiment_runs_pkey` — insert the record, or replace the
existing record that carries the same key. -/
def upsertRun (tbl : List RunRec) (r : RunRec) : List RunRec :=
  if tbl.any (fun x => runKey x = runKey r) then
    tbl.map (fun x => if runKey x = runKey r then r else x)
  else r :: tbl

/-- Modelled from the spec: the tracker updates the status and last_error
of the record with the given key. -/
def setRunStatus (tbl : List RunRec) (k : String × String × ℕ)
    (st : RStatus) (err : Option String) : List RunRec :=
  tbl.map (fun x => if runKey x = k then
    { x with status := st, last_error := err } else x)

/-- Modelled from the spec: on a retryable error the tracker increments
`retry_count`, records the error and reschedules the attempt as pending. -/
def recordRetry (tbl : List RunRec) (k : String × String × ℕ)
    (err : Option String) : List RunRec :=
  tbl.map (fun x => if runKey x = k then
    { x with status := RStatus.pending, retry_count := x.retry_count + 1,
             last_error := err } else x)

/-- The operations the orchestrator and tracker perform on the store. -/
inductive StoreOp where
  | upsert (r : RunRec)
  | setStatus (k : String × String × ℕ) (st : RStatus) (err : Option String)
  | retryBump (k : String × String × ℕ) (err : Option String)

def applyOp (tbl : List RunRec) : StoreOp → List RunRec
  | StoreOp.upsert r => upsertRun tbl r
  | StoreOp.setStatus k st err => setRunStatus tbl k st err
  | StoreOp.retryBump k err => recordRetry tbl k err

def applyOps (tbl : List RunRec) (ops : List StoreOp) : List RunRec :=
  ops.foldl applyOp tbl

/-- A concrete RunAttempt record used by witnesses. -/
def recW : RunRec :=
  ⟨"gpt-4", "tc1", 1, RStatus.pending, 0, none⟩

/-- The number of stored records carrying a given
(model_id, test_case_id, run_number) key. -/
def countKey (tbl : List RunRec) (k : String × String × ℕ) : ℕ :=
  (tbl.filter (fun x => runKey x = k)).length

/-- Modelled from the spec (§4.3): the events that drive one RunAttempt
through the tracker state machine. -/
inductive TrackerEvent where
  | dequeue
  | succeed
  | scheduleRetry
  | fail
deriving DecidableEq, Repr

/-- Modelled from the spec (§4.3): the RunAttemptTracker transition
function.  `pending → in_progress` on dequeue, `in_progress` resolves to
`succeeded`, back to `pending` (retry scheduled), or `failed`; every other
(state, event) pair leaves the state unchanged. -/
def trackerNext : RStatus → TrackerEvent → RStatus
  | RStatus.pending, TrackerEvent.dequeue => RStatus.in_progress
  | RStatus.in_progress, TrackerEvent.succeed => RStatus.succeeded
  | RStatus.in_progress, TrackerEvent.scheduleRetry => RStatus.pending
  | RStatus.in_progress, TrackerEvent.fail => RStatus.failed
  | s, _ => s

/-- Modelled from the spec (§4.3): the run number a later re-run of the
whole evaluation uses for a (model, test case) pair — one past the largest
run number already stored for that pair. -/
def nextRunNumber (tbl : List RunRec) (model test : String) : ℕ :=
  ((tbl.filter (fun x => x.model_id = model ∧ x.test_case_id = test)).map
    (fun x => x.run_number)).foldr max 0 + 1

/-- Modelled from the spec (§4.3): a re-run creates a fresh pending
RunAttempt under the incremented run number; the stored history is not
mutated. -/
def rerun (tbl : List RunRec) (model test : String) : List RunRec :=
  { model_id := model, test_case_id := test,
    run_number := nextRunNumber tbl model test,
    status := RStatus.pending, retry_count := 0, last_error := none } :: tbl

/-- A character that can be part of a numeric token: a digit or a decimal
point. -/
def isNumChar (c : Char) : Bool :=
  c.isDigit || c == '.'

/-- Collects the maximal runs of numeric characters of the input;
`acc` holds the (reversed) run being read. -/
def numTokensAux : List Char → List Char → List (List Char)
  | [], acc => if acc.isEmpty then [] else [acc.reverse]
  | c :: cs, acc =>
    if isNumChar c then numTokensAux cs (c :: acc)
    else if acc.isEmpty then numTokensAux cs []
    else acc.reverse :: numTokensAux cs []

/-- The maximal numeric-character runs of a character list. -/
def numTokens (l : List Char) : List (List Char) :=
  numTokensAux l []

/-- The natural number denoted by a digit run. -/
def digitsToNat (ds : List Char) : ℕ :=
  ds.foldl (fun a c => a * 10 + (c.toNat - 48)) 0

/-- Modelled from the spec (§4.1): parse one numeric token into a
rational — integer digits, then an optional fractional part after a
decimal point; a token with no digit denotes no number. -/
def tokenToRat (t : List Char) : Option ℚ :=
  if t.any Char.isDigit then
    match t.dropWhile Char.isDigit with
    | '.' :: fr =>
      some ((digitsToNat (t.takeWhile Char.isDigit) : ℚ) +
        (digitsToNat (fr.takeWhile Char.isDigit) : ℚ) /
          ((10 : ℚ) ^ (fr.takeWhile Char.isDigit).length))
    | _ => some ((digitsToNat (t.takeWhile Char.isDigit) : ℚ))
  else none

/-- Modelled from the spec (§4.1): the numeric tokens extractable from a
string, in order of appearance.  The LenientFactualCorrectness scorer
itself is not under src/ (only the metric table of the backend README,
src/unnamed/part_002 lines 50-60, names it). -/
def extractNumbers (s : String) : List ℚ :=
  (numTokens s.toList).filterMap tokenToRat

/-- Modelled from the spec (§4.1): LenientFactualCorrectness — compare
the principal (first) numeric value of candidate and reference within a
relative tolerance band `tol`; when no numeric token is found, fall back
to exact string match, and yield null (`none`) rather than a score when
that fails too.  The band is a parameter because the source leaves the
exact percentage open. -/
def lenientFactualCorrectness (tol : ℚ) (candidate reference : String) : Option ℚ :=
  match extractNumbers reference, extractNumbers candidate with
  | r :: _, c :: _ => some (if |c - r| ≤ tol * |r| then 1 else 0)
  | _, _ => if candidate = reference then some 1 else none

/-- Substring containment on character lists. -/
def containsSub (hay needle : List Char) : Bool :=
  match hay with
  | [] => needle.isEmpty
  | _ :: t => needle.isPrefixOf hay || containsSub t needle

/-- Modelled from the spec (§4.1): the StringPresence metric — substring
containment of the reference in the candidate, scored 1.0 or 0.0. -/
def string_present (candidate reference : String) : Option ℚ :=
  some (if containsSub candidate.toList reference.toList then 1 else 0)

/-- The rational 6.17 in the unreduced form the token parser produces. -/
def speedValue : ℚ :=
  (digitsToNat ['6'] : ℚ) + (digitsToNat ['1', '7'] : ℚ) / ((10 : ℚ) ^ 2)

/-- A JavaScript value as the `/api/evaluate` handler sees a request body
field: a string, a number, a boolean, `null`, or `undefined` (the field is
absent from the body). -/
inductive JSVal where
  | jstr (s : String)
  | jnum (n : Int)
  | jbool (b : Bool)
  | jnull
  | jundefined
deriving DecidableEq, Repr

/-- JavaScript falsiness: `""`, `0`, `false`, `null` and `undefined` are
falsy; everything else is truthy. -/
def JSVal.falsy : JSVal → Bool
  | JSVal.jstr s => s = ""
  | JSVal.jnum n => n = 0
  | JSVal.jbool b => !b
  | JSVal.jnull => true
  | JSVal.jundefined => true

/-- JavaScript `a || b`: `b` when `a` is falsy, otherwise `a`. -/
def jsOr (a b : JSVal) : JSVal :=
  if a.falsy then b else a

/-- A request to the `/api/evaluate` handler: the HTTP method and the
three body fields the handler destructures
(src/frontend/pages/api/evaluate.js line 9). -/
structure EvalRequest where
  method : String
  model_id : JSVal
  number_of_runs : JSVal
  max_retries : JSVal
deriving DecidableEq, Repr

/-- The body the handler forwards to the backend `/api/evaluate`
(src/frontend/pages/api/evaluate.js lines 22-26). -/
structure ForwardBody where
  model_id : JSVal
  number_of_runs : JSVal
  max_retries : JSVal
deriving DecidableEq, Repr

/-- What the handler decides to do with a request: answer immediately with
a status code, or forward a body to the backend.  (The 200/500 answer
after a forward depends on the backend and is outside this model.) -/
inductive HandlerAction where
  | respond (status : ℕ)
  | forward (body : ForwardBody)
deriving DecidableEq, Repr

/-- Embedding of the `/api/evaluate` handler
(src/frontend/pages/api/evaluate.js lines 6-27): non-POST methods get 405;
a falsy `model_id` (`!model_id`) gets 400 without forwarding; otherwise
the request is forwarded with `number_of_runs || 1` and
`max_retries || 3`. -/
def evaluateHandler (req : EvalRequest) : HandlerAction :=
  if req.method = "POST" then
    if req.model_id.falsy then HandlerAction.respond 400
    else HandlerAction.forward
      ⟨req.model_id, jsOr req.number_of_runs (JSVal.jnum 1),
        jsOr req.max_retries (JSVal.jnum 3)⟩
  else HandlerAction.respond 405

/-- Outcome of one `REFRESH MATERIALIZED VIEW` statement. -/
inductive RefreshOutcome where
  | ok
  | err (msg : String)
deriving DecidableEq, Repr

/-- What a firing of the trigger function produces: a propagated error (if
any escaped the function), the warnings it raised, its return value, and
whether the non-concurrent fallback refresh was attempted. -/
structure TriggerResult where
  propagatedError : Option String
  warnings : List String
  returnValue : Option Unit
  plainAttempted : Bool
deriving DecidableEq, Repr

/-- Embedding of the plpgsql trigger function
`refresh_model_performance_metrics()` (src/backend/postgres/init/
db_schemas.sql lines 55-84): if `query_result` is empty, return NULL
without refreshing; otherwise try the concurrent refresh; on failure
raise a warning and try the plain refresh inside a nested block; on
failure of that too raise a warning.  Every branch returns NULL and no
branch re-raises. -/
def refresh_model_performance_metrics (hasQueryResult : Bool)
    (conc plain : RefreshOutcome) : TriggerResult :=
  if !hasQueryResult then
    ⟨none, [], none, false⟩
  else
    match conc with
    | RefreshOutcome.ok => ⟨none, [], none, false⟩
    | RefreshOutcome.err m1 =>
      match plain with
      | RefreshOutcome.ok => ⟨none, [m1], none, true⟩
      | RefreshOutcome.err m2 => ⟨none, [m1, m2], none, true⟩

theorem countNull_le (xs : List (Option ℚ)) : countNull xs ≤ xs.length := by
  unfold countNull
  exact List.length_filter_le _ _

theorem nonNull_length (xs : List (Option ℚ)) :
    (nonNull xs).length = xs.length - countNull xs := by
  induction xs with
  | nil => rfl
  | cons h t ih =>
    have ht := countNull_le t
    cases h <;>
      simp only [nonNull, countNull, List.filterMap_cons, List.filter_cons,
        Option.isNone_none, Option.isNone_some, id_eq, List.length_cons,
        if_true, if_false, Bool.false_eq_true, ite_false, ite_true] at ih ht ⊢ <;>
      omega

theorem nonNull_eq_nil_iff (xs : List (Option ℚ)) :
    nonNull xs = [] ↔ countNull xs = xs.length := by
  constructor
  · intro h
    have h1 := nonNull_length xs
    have h2 := countNull_le xs
    rw [h] at h1
    simp only [List.length_nil] at h1
    omega
  · intro h
    have hl := nonNull_length xs
    rw [h, Nat.sub_self] at hl
    exact List.length_eq_zero.mp hl

/-- Claim C1: for every model and every metric, the per-model aggregate
mean of that metric over N persisted evaluation records of which k are null
equals the arithmetic mean of the N-k non-null values, and when k equals N
the aggregate for that metric is null, never zero.  This is the
`AVG(...) FILTER (WHERE ... IS NOT NULL)` semantics of the
`model_performance_metrics` view. -/
theorem avg_excludes_nulls (db : List EvalRow) (m : String) (c : Metric) :
    (countNull (metricColumn db m c) = (metricColumn db m c).length →
      avgMetric db m c = none) ∧
    (countNull (metricColumn db m c) < (metricColumn db m c).length →
      avgMetric db m c =
        some ((nonNull (metricColumn db m c)).sum /
          (((metricColumn db m c).length - countNull (metricColumn db m c) : ℕ) : ℚ))) := by
  refine ⟨fun h => ?_, fun h => ?_⟩
  · have h0 : (nonNull (metricColumn db m c)).length = 0 := by
      rw [nonNull_length]
      omega
    unfold avgMetric sqlAvg
    simp [h0]
  · have hne : (metricColumn db m c).length - countNull (metricColumn db m c) ≠ 0 := by
      omega
    unfold avgMetric sqlAvg
    rw [nonNull_length, if_neg hne]

/-- Witness for C1 on `dbW`: model `m1`, metric faithfulness, 3 records of
which 1 is null; the mean is computed over the 2 non-null values. -/
theorem avg_excludes_nulls_witness :
    countNull (metricColumn dbW "m1" Metric.faithfulness) <
      (metricColumn dbW "m1" Metric.faithfulness).length ∧
    avgMetric dbW "m1" Metric.faithfulness =
      some ((nonNull (metricColumn dbW "m1" Metric.faithfulness)).sum /
        (((metricColumn dbW "m1" Metric.faithfulness).length -
          countNull (metricColumn dbW "m1" Metric.faithfulness) : ℕ) : ℚ)) :=
  ⟨by decide, (avg_excludes_nulls dbW "m1" Metric.faithfulness).2 (by decide)⟩

/-- Claim C8: the aggregate computes the sample standard deviation of each
metric grouped by model (`STDDEV_SAMP ... FILTER (WHERE ... IS NOT NULL)`),
and null metric values are excluded from both the mean and the per-metric
count: the count the aggregate uses is the number of non-null values, the
sample variance divides by that count minus one, and the aggregate is null
when fewer than two non-null values exist.  The standard deviation is
verified through its square (the sample variance), which determines it. -/
theorem stddev_samp_excludes_nulls (db : List EvalRow) (m : String) (c : Metric) :
    ((nonNull (metricColumn db m c)).length =
      (metricColumn db m c).length - countNull (metricColumn db m c)) ∧
    ((metricColumn db m c).length - countNull (metricColumn db m c) < 2 →
      stddevSqMetric db m c = none) ∧
    (2 ≤ (metricColumn db m c).length - countNull (metricColumn db m c) →
      stddevSqMetric db m c =
        some (((nonNull (metricColumn db m c)).map
            (fun v => (v - (nonNull (metricColumn db m c)).sum /
              (((metricColumn db m c).length - countNull (metricColumn db m c) : ℕ) : ℚ)) ^ 2)).sum /
          ((((metricColumn db m c).length - countNull (metricColumn db m c)) - 1 : ℕ) : ℚ))) := by
  refine ⟨nonNull_length _, fun h => ?_, fun h => ?_⟩
  · unfold stddevSqMetric sqlVarSamp
    rw [nonNull_length, if_pos h]
  · have hge : ¬ ((metricColumn db m c).length - countNull (metricColumn db m c) < 2) := by
      omega
    unfold stddevSqMetric sqlVarSamp
    rw [nonNull_length, if_neg hge]

/-- Witness for C8 on `dbW`: model `m1`, metric semantic_similarity has no
non-null value among its 3 records, so the sample-variance aggregate is
null rather than zero, and the per-metric count is 0, not 3. -/
theorem stddev_samp_excludes_nulls_witness :
    (metricColumn dbW "m1" Metric.semantic_similarity).length -
      countNull (metricColumn dbW "m1" Metric.semantic_similarity) < 2 ∧
    stddevSqMetric dbW "m1" Metric.semantic_similarity = none :=
  ⟨by decide, (stddev_samp_excludes_nulls dbW "m1" Metric.semantic_similarity).2.1 (by decide)⟩

theorem resolveFailure_failed_iff (maxRetries retryCount : ℕ) (retryable : Bool) :
    resolveFailure maxRetries retryCount retryable = RStatus.failed ↔
      (retryable = false ∨ maxRetries ≤ retryCount) := by
  unfold resolveFailure
  rcases retryable with _ | _
  all_goals by_cases hlt : retryCount < maxRetries
  all_goals simp [hlt]
  all_goals omega

theorem resolveFailure_pending_iff (maxRetries retryCount : ℕ) (retryable : Bool) :
    resolveFailure maxRetries retryCount retryable = RStatus.pending ↔
      (retryable = true ∧ retryCount < maxRetries) := by
  unfold resolveFailure
  rcases retryable with _ | _ <;> by_cases hlt : retryCount < maxRetries <;>
    simp [hlt]

theorem runToTermination_perm_fail (invoke : ℕ → AttemptOutcome)
    (hf : ∀ n, invoke n = AttemptOutcome.failure true) (m : ℕ) :
    ∀ d rc, m - rc = d → rc ≤ m →
      runToTermination invoke m rc = (d + 1, RStatus.failed) := by
  intro d
  induction d with
  | zero =>
    intro rc h1 h2
    have hrc : rc = m := by omega
    subst hrc
    rw [runToTermination, hf rc]
    show (if h : resolveFailure rc rc true = RStatus.pending then
        let p := runToTermination invoke rc (rc + 1)
        (p.1 + 1, p.2)
      else (1, RStatus.failed)) = (0 + 1, RStatus.failed)
    have hp : ¬ resolveFailure rc rc true = RStatus.pending := by
      simp [resolveFailure_pending_iff]
    rw [dif_neg hp]
  | succ d ih =>
    intro rc h1 h2
    have hlt : rc < m := by omega
    rw [runToTermination, hf rc]
    show (if h : resolveFailure m rc true = RStatus.pending then
        let p := runToTermination invoke m (rc + 1)
        (p.1 + 1, p.2)
      else (1, RStatus.failed)) = (d + 1 + 1, RStatus.failed)
    have hp : resolveFailure m rc true = RStatus.pending := by
      rw [resolveFailure_pending_iff]
      exact ⟨rfl, hlt⟩
    rw [dif_pos hp]
    have hrec := ih (rc + 1) (by omega) (by omega)
    simp [hrec]

/-- Claim C2: for every max_retries value r and every RunAttempt whose
AgentInvoker call fails with a retryable error on every attempt, the
attempt is executed exactly r+1 times and the RunAttempt then reaches
status failed; and the transition to failed occurs exactly when the error
is non-retryable or retry_count >= max_retries. -/
theorem retry_bound :
    (∀ (invoke : ℕ → AttemptOutcome) (r : ℕ),
        (∀ n, invoke n = AttemptOutcome.failure true) →
        runToTermination invoke r 0 = (r + 1, RStatus.failed)) ∧
    (∀ (r rc : ℕ) (e : Bool),
        resolveFailure r rc e = RStatus.failed ↔ (e = false ∨ r ≤ rc)) := by
  constructor
  · intro invoke r hf
    simpa using runToTermination_perm_fail invoke hf r r 0 (by omega) (by omega)
  · intro r rc e
    exact resolveFailure_failed_iff r rc e

/-- Witness for C2: with max_retries = 3 and every call failing with a
retryable error, the call runs 4 times and the attempt ends failed; at
retry_count = 3 a retryable error is resolved to failed. -/
theorem retry_bound_witness :
    runToTermination (fun _ => AttemptOutcome.failure true) 3 0 = (4, RStatus.failed) ∧
    (resolveFailure 3 3 true = RStatus.failed ↔ (true = false ∨ 3 ≤ 3)) :=
  ⟨retry_bound.1 (fun _ => AttemptOutcome.failure true) 3 (fun _ => rfl),
   retry_bound.2 3 3 true⟩

theorem map_runKey_of_preserving (tbl : List RunRec) (f : RunRec → RunRec)
    (hf : ∀ x, runKey (f x) = runKey x) :
    (tbl.map f).map runKey = tbl.map runKey := by
  rw [List.map_map]
  exact List.map_congr_left (fun x _ => hf x)

theorem upsert_key_preserving (r x : RunRec) :
    runKey (if runKey x = runKey r then r else x) = runKey x := by
  by_cases h : runKey x = runKey r
  · rw [if_pos h, h]
  · rw [if_neg h]

theorem applyOp_uniq (tbl : List RunRec) (op : StoreOp) (h : uniqKeys tbl) :
    uniqKeys (applyOp tbl op) := by
  cases op with
  | upsert r =>
    show uniqKeys (upsertRun tbl r)
    unfold upsertRun
    by_cases hin : (tbl.any fun x => decide (runKey x = runKey r)) = true
    · rw [if_pos hin]
      unfold uniqKeys
      rw [map_runKey_of_preserving tbl _ (upsert_key_preserving r)]
      exact h
    · rw [if_neg hin]
      unfold uniqKeys
      rw [List.map_cons]
      refine List.nodup_cons.mpr ⟨?_, h⟩
      intro hmem
      apply hin
      obtain ⟨x, hx, hkx⟩ := List.mem_map.mp hmem
      exact List.any_eq_true.mpr ⟨x, hx, by simp [hkx]⟩
  | setStatus k st err =>
    show uniqKeys (setRunStatus tbl k st err)
    unfold setRunStatus uniqKeys
    rw [map_runKey_of_preserving]
    · exact h
    · intro x
      by_cases hx : runKey x = k
      · rw [if_pos hx]
        rfl
      · rw [if_neg hx]
  | retryBump k err =>
    show uniqKeys (recordRetry tbl k err)
    unfold recordRetry uniqKeys
    rw [map_runKey_of_preserving]
    · exact h
    · intro x
      by_cases hx : runKey x = k
      · rw [if_pos hx]
        rfl
      · rw [if_neg hx]

/-- Claim C3: the set of stored RunAttempt records contains at most one
record per (model_id, test_case_id, run_number) triple, and every
operation of the orchestrator and tracker on the store preserves this
uniqueness invariant, at every point of any operation sequence. -/
theorem store_ops_preserve_key_uniqueness (ops : List StoreOp)
    (tbl : List RunRec) (h : uniqKeys tbl) :
    uniqKeys (applyOps tbl ops) := by
  induction ops generalizing tbl with
  | nil => exact h
  | cons op rest ih => exact ih (applyOp tbl op) (applyOp_uniq tbl op h)

/-- Witness for C3: starting from the empty store, an upsert, a status
update and a retry bump leave the keys unique. -/
theorem store_ops_preserve_key_uniqueness_witness :
    uniqKeys (applyOps []
      [StoreOp.upsert recW,
       StoreOp.retryBump (runKey recW) (some "timeout"),
       StoreOp.setStatus (runKey recW) RStatus.failed (some "timeout"),
       StoreOp.upsert recW]) :=
  store_ops_preserve_key_uniqueness _ [] (by simp [uniqKeys])

theorem countKey_cons (x : RunRec) (t : List RunRec) (k : String × String × ℕ) :
    countKey (x :: t) k = (if runKey x = k then 1 else 0) + countKey t k := by
  unfold countKey
  rw [List.filter_cons]
  by_cases hx : runKey x = k
  · simp [hx]
    omega
  · simp [hx]

theorem countKey_map (tbl : List RunRec) (f : RunRec → RunRec)
    (hf : ∀ x, runKey (f x) = runKey x) (k : String × String × ℕ) :
    countKey (tbl.map f) k = countKey tbl k := by
  induction tbl with
  | nil => rfl
  | cons x t ih =>
    rw [List.map_cons, countKey_cons, countKey_cons, hf x, ih]

theorem countKey_eq_zero (tbl : List RunRec) (k : String × String × ℕ)
    (h : ∀ x ∈ tbl, runKey x ≠ k) : countKey tbl k = 0 := by
  induction tbl with
  | nil => rfl
  | cons x t ih =>
    rw [countKey_cons, if_neg (h x (List.mem_cons_self x t))]
    simpa using ih (fun y hy => h y (List.mem_cons_of_mem x hy))

theorem countKey_le_one (tbl : List RunRec) (k : String × String × ℕ)
    (h : uniqKeys tbl) : countKey tbl k ≤ 1 := by
  induction tbl with
  | nil => simp [countKey]
  | cons x t ih =>
    unfold uniqKeys at h
    rw [List.map_cons, List.nodup_cons] at h
    rw [countKey_cons]
    by_cases hx : runKey x = k
    · have h0 : countKey t k = 0 := by
        apply countKey_eq_zero
        intro y hy hk
        exact h.1 (List.mem_map.mpr ⟨y, hy, by rw [hk, hx]⟩)
      rw [if_pos hx, h0]
    · rw [if_neg hx]
      simpa using ih h.2

theorem countKey_upsert (tbl : List RunRec) (r : RunRec) (h : uniqKeys tbl) :
    countKey (upsertRun tbl r) (runKey r) = 1 := by
  unfold upsertRun
  by_cases hin : (tbl.any fun x => decide (runKey x = runKey r)) = true
  · rw [if_pos hin, countKey_map tbl _ (upsert_key_preserving r)]
    have hle := countKey_le_one tbl (runKey r) h
    obtain ⟨x, hx, hkx⟩ : ∃ x ∈ tbl, runKey x = runKey r := by
      simpa using hin
    have hmem : x ∈ tbl.filter (fun y => runKey y = runKey r) :=
      List.mem_filter.mpr ⟨hx, by simp [hkx]⟩
    have hpos : 0 < countKey tbl (runKey r) := by
      unfold countKey
      exact List.length_pos.mpr (List.ne_nil_of_mem hmem)
    omega
  · rw [if_neg hin, countKey_cons, if_pos rfl]
    have h0 : countKey tbl (runKey r) = 0 := by
      apply countKey_eq_zero
      intro y hy hk
      exact hin (List.any_eq_true.mpr ⟨y, hy, by simp [hk]⟩)
    rw [h0]

/-- Claim C4: for every store state with unique keys and every
(model_id, test_case_id, run_number) key, appending twice with the same
key leaves exactly one persisted record for that key — the write is
idempotent by key, so a crash-and-restart replay does not duplicate
completed records. -/
theorem append_idempotent_by_key (tbl : List RunRec) (r r' : RunRec)
    (huniq : uniqKeys tbl) (hk : runKey r' = runKey r) :
    countKey (upsertRun (upsertRun tbl r) r') (runKey r) = 1 := by
  have h1 : uniqKeys (upsertRun tbl r) :=
    applyOp_uniq tbl (StoreOp.upsert r) huniq
  rw [← hk]
  exact countKey_upsert (upsertRun tbl r) r' h1

/-- Witness for C4: appending the same record twice to the empty store
leaves exactly one record under its key. -/
theorem append_idempotent_by_key_witness :
    countKey (upsertRun (upsertRun [] recW) recW) (runKey recW) = 1 :=
  append_idempotent_by_key [] recW recW (by simp [uniqKeys]) rfl

theorem le_foldr_max (l : List ℕ) (x : ℕ) (hx : x ∈ l) : x ≤ l.foldr max 0 := by
  induction l with
  | nil => cases hx
  | cons h t ih =>
    rcases List.mem_cons.mp hx with h1 | h2
    · rw [h1, List.foldr_cons]
      exact le_max_left _ _
    · exact le_trans (ih h2) (le_max_right _ _)

/-- Claim C7: no transition leaves `succeeded` or `failed`: any sequence
of tracker events starting from a terminal status ends in that same
status; and a later re-run creates a new RunAttempt under an incremented
run_number — the existing records are untouched and the new run number
strictly exceeds every stored run number for that (model, test case). -/
theorem terminal_states_never_left :
    (∀ evs : List TrackerEvent,
        evs.foldl trackerNext RStatus.succeeded = RStatus.succeeded) ∧
    (∀ evs : List TrackerEvent,
        evs.foldl trackerNext RStatus.failed = RStatus.failed) ∧
    (∀ (tbl : List RunRec) (model test : String),
        (rerun tbl model test).tail = tbl ∧
        (rerun tbl model test).head? = some
          { model_id := model, test_case_id := test,
            run_number := nextRunNumber tbl model test,
            status := RStatus.pending, retry_count := 0, last_error := none }) ∧
    (∀ (tbl : List RunRec) (model test : String) (x : RunRec), x ∈ tbl →
        x.model_id = model → x.test_case_id = test →
        x.run_number < nextRunNumber tbl model test) := by
  refine ⟨?_, ?_, ?_, ?_⟩
  · intro evs
    induction evs with
    | nil => rfl
    | cons e rest ih =>
      rw [List.foldl_cons]
      have he : trackerNext RStatus.succeeded e = RStatus.succeeded := by
        cases e <;> rfl
      rw [he, ih]
  · intro evs
    induction evs with
    | nil => rfl
    | cons e rest ih =>
      rw [List.foldl_cons]
      have he : trackerNext RStatus.failed e = RStatus.failed := by
        cases e <;> rfl
      rw [he, ih]
  · intro tbl model test
    exact ⟨rfl, rfl⟩
  · intro tbl model test x hx hm ht
    have hmem : x.run_number ∈
        ((tbl.filter (fun y => y.model_id = model ∧ y.test_case_id = test)).map
          (fun y => y.run_number)) := by
      exact List.mem_map.mpr ⟨x, List.mem_filter.mpr ⟨hx, by simp [hm, ht]⟩, rfl⟩
    have := le_foldr_max _ _ hmem
    unfold nextRunNumber
    omega

/-- Witness for C7: from `succeeded`, a dequeue/retry/fail event sequence
changes nothing; re-running (model `gpt-4`, test `tc1`) over a store
holding run 1 leaves the store intact and picks run number 2. -/
theorem terminal_states_never_left_witness :
    ([TrackerEvent.dequeue, TrackerEvent.scheduleRetry,
      TrackerEvent.fail].foldl trackerNext RStatus.succeeded = RStatus.succeeded) ∧
    (rerun [recW] "gpt-4" "tc1").tail = [recW] ∧
    recW.run_number < nextRunNumber [recW] "gpt-4" "tc1" :=
  ⟨terminal_states_never_left.1 _,
   (terminal_states_never_left.2.2.1 [recW] "gpt-4" "tc1").1,
   terminal_states_never_left.2.2.2 [recW] "gpt-4" "tc1" recW
     (List.mem_singleton.mpr rfl) rfl rfl⟩

/-- Claim C5: whenever the candidate's principal numeric value equals the
reference's within the relative tolerance band, factual_correctness is
1.0; in particular, for reference "6.17 knots" and candidate "The average
speed is approximately 6.17 knots." factual_correctness is 1.0 and
string_present is 1.0. -/
theorem factual_correctness_within_tolerance :
    (∀ (tol : ℚ) (cand ref : String) (c r : ℚ) (cs rs : List ℚ),
        extractNumbers cand = c :: cs → extractNumbers ref = r :: rs →
        |c - r| ≤ tol * |r| →
        lenientFactualCorrectness tol cand ref = some 1) ∧
    lenientFactualCorrectness (5/100)
      "The average speed is approximately 6.17 knots." "6.17 knots" = some 1 ∧
    string_present
      "The average speed is approximately 6.17 knots." "6.17 knots" = some 1 := by
  refine ⟨?_, ?_, ?_⟩
  · intro tol cand ref c r cs rs hc hr htol
    unfold lenientFactualCorrectness
    rw [hr, hc]
    show some (if |c - r| ≤ tol * |r| then 1 else 0) = some 1
    rw [if_pos htol]
  · have hr : extractNumbers "6.17 knots" = [speedValue] := rfl
    have hc : extractNumbers
        "The average speed is approximately 6.17 knots." = [speedValue] := rfl
    unfold lenientFactualCorrectness
    rw [hr, hc]
    show some (if |speedValue - speedValue| ≤ (5/100) * |speedValue| then 1 else 0)
      = some 1
    rw [if_pos]
    rw [sub_self, abs_zero]
    positivity
  · rfl

/-- Witness for C5: the scenario of the claim, obtained through the
general tolerance statement at the extracted value 6.17 on both sides. -/
theorem factual_correctness_within_tolerance_witness :
    lenientFactualCorrectness (5/100)
      "The average speed is approximately 6.17 knots." "6.17 knots" = some 1 :=
  factual_correctness_within_tolerance.1 (5/100)
    "The average speed is approximately 6.17 knots." "6.17 knots"
    speedValue speedValue [] [] (by rfl) (by rfl)
    (by rw [sub_self, abs_zero]; positivity)

/-- Claim C6: when no numeric token is extractable from either string and
the strings are not exact matches, the factual_correctness scorer returns
null (`none`) — never 0.0; the scorer is a total function, so no input
raises. -/
theorem factual_correctness_null_on_no_number (tol : ℚ) (cand ref : String)
    (hc : extractNumbers cand = []) (hr : extractNumbers ref = [])
    (hne : cand ≠ ref) :
    lenientFactualCorrectness tol cand ref = none := by
  unfold lenientFactualCorrectness
  rw [hr, hc]
  show (if cand = ref then some 1 else none) = none
  rw [if_neg hne]

/-- Witness for C6: two different strings with no numeric content score
null. -/
theorem factual_correctness_null_on_no_number_witness :
    lenientFactualCorrectness (5/100) "no numeric value" "unknown" = none :=
  factual_correctness_null_on_no_number (5/100) "no numeric value" "unknown"
    (by rfl) (by rfl) (by decide)

/-- Claim C9 as stated is false on the code: it asserts that every POST
request whose `model_id` is not absent is forwarded, but the handler tests
`!model_id`, so a present-but-falsy `model_id` — here the empty string —
gets 400 and is not forwarded. -/
theorem evaluate_handler_claim_counterexample :
    ¬ (∀ req : EvalRequest, req.method = "POST" →
        req.model_id ≠ JSVal.jundefined →
        ∃ b : ForwardBody, evaluateHandler req = HandlerAction.forward b) := by
  intro h
  obtain ⟨b, hb⟩ :=
    h ⟨"POST", JSVal.jstr "", JSVal.jnum 2, JSVal.jnum 5⟩ rfl (by simp)
  have hcomp : evaluateHandler ⟨"POST", JSVal.jstr "", JSVal.jnum 2, JSVal.jnum 5⟩ =
      HandlerAction.respond 400 := rfl
  rw [hcomp] at hb
  cases hb

/-- Claim C9, amended: for every POST request, if `model_id` is falsy
(absent, null, empty, 0 or false) the handler answers 400 and forwards
nothing; otherwise it forwards the request with `number_of_runs` replaced
by 1 and `max_retries` replaced by 3 exactly when the supplied value is
falsy (absent, null, or 0), and kept as supplied otherwise. -/
theorem evaluate_handler_behavior (req : EvalRequest)
    (hm : req.method = "POST") :
    (req.model_id.falsy = true →
      evaluateHandler req = HandlerAction.respond 400) ∧
    (req.model_id.falsy = false →
      evaluateHandler req = HandlerAction.forward
        ⟨req.model_id,
         if req.number_of_runs.falsy then JSVal.jnum 1 else req.number_of_runs,
         if req.max_retries.falsy then JSVal.jnum 3 else req.max_retries⟩) := by
  constructor
  · intro hf
    unfold evaluateHandler
    rw [if_pos hm, if_pos hf]
  · intro hf
    unfold evaluateHandler jsOr
    rw [if_pos hm, if_neg (by rw [hf]; exact Bool.false_ne_true)]

/-- Witness for the amended C9: a POST request with truthy model and falsy
run counts is forwarded with the defaults 1 and 3. -/
theorem evaluate_handler_behavior_witness :
    evaluateHandler ⟨"POST", JSVal.jstr "gpt-4", JSVal.jnum 0, JSVal.jnull⟩ =
      HandlerAction.forward ⟨JSVal.jstr "gpt-4", JSVal.jnum 1, JSVal.jnum 3⟩ :=
  (evaluate_handler_behavior
    ⟨"POST", JSVal.jstr "gpt-4", JSVal.jnum 0, JSVal.jnull⟩ rfl).2 rfl

/-- Claim C10: the trigger function never propagates an error to the
statement that fired it and always returns NULL; whenever the concurrent
refresh fails (and the driving table is non-empty) the non-concurrent
fallback is attempted; and when both fail the function only emits the two
warnings. -/
theorem refresh_trigger_never_raises (hasQueryResult : Bool)
    (conc plain : RefreshOutcome) :
    (refresh_model_performance_metrics hasQueryResult conc plain).propagatedError
      = none ∧
    (refresh_model_performance_metrics hasQueryResult conc plain).returnValue
      = none ∧
    (∀ m1, hasQueryResult = true → conc = RefreshOutcome.err m1 →
      (refresh_model_performance_metrics hasQueryResult conc plain).plainAttempted
        = true) ∧
    (∀ m1 m2, hasQueryResult = true → conc = RefreshOutcome.err m1 →
      plain = RefreshOutcome.err m2 →
      (refresh_model_performance_metrics hasQueryResult conc plain).warnings
        = [m1, m2]) := by
  rcases hasQueryResult with _ | _ <;> rcases conc with _ | m1 <;>
    rcases plain with _ | m2 <;>
    simp [refresh_model_performance_metrics]

/-- Witness for C10: with data present and both refreshes failing, the
trigger raises nothing, returns NULL, attempted the fallback, and emitted
exactly the two warnings. -/
theorem refresh_trigger_never_raises_witness :
    (refresh_model_performance_metrics true (RefreshOutcome.err "deadlock")
      (RefreshOutcome.err "oom")).propagatedError = none ∧
    (refresh_model_performance_metrics true (RefreshOutcome.err "deadlock")
      (RefreshOutcome.err "oom")).warnings = ["deadlock", "oom"] :=
  ⟨(refresh_trigger_never_raises true (RefreshOutcome.err "deadlock")
      (RefreshOutcome.err "oom")).1,
   (refresh_trigger_never_raises true (RefreshOutcome.err "deadlock")
      (RefreshOutcome.err "oom")).2.2.2 "deadlock" "oom" rfl rfl rfl⟩
